import Mathlib

/-!
Shallow embedding of the option-processing pipeline of `ias/simple_cdk.py`
(awscdk-python-template).

Python `TypedDict` records become Lean structures whose non-required fields
(and required fields that are only enforced by convention, such as
`deployment_name`, which the code reads defensively with `.get`) are `Option`s:
`none` models an absent key, matching how the code observes fields through
`dict.get` / `is None`.

Python `dict[str, ...]` values become association lists with Python-dict
semantics: assignment replaces the first (unique) occurrence in place or
appends, `update` folds assignments over the other dict's entries in order.

I/O is passed explicitly: process environment variables as a `SysEnv` record,
the file system as a map from file name to `none` (FileNotFoundError) or the
TOML parse result of the file's contents. Logging calls are omitted (they do
not affect any data the claims mention).

In-place mutation of the *argument* of an option processor is tracked
value-wise: each processor returns a `ProcCall` carrying both the returned
record (`ret`) and the value of the caller's argument after the call
(`argAfter`). For the three processors that start with
`new_options = copy.deepcopy(options)` and mutate only objects reachable from
`new_options`, the argument keeps its value, so `argAfter` is the input
unchanged. In `load_toml_config_files` the local `config_result` aliases
`options["context"]` whenever that key is present, and `dict.update` runs on
that alias before the deepcopy, so there `argAfter` reflects the merged
context. (On the parse-error path the exception propagates; only the error is
modelled there.)

Exceptions become `Except PyErr`.
-/

set_option autoImplicit false

namespace SimpleCdk

/-- Python exceptions that the modelled code can raise. -/
inductive PyErr where
  | keyError
  | indexError
  | attributeError
  | tomlDecodeError
  deriving DecidableEq, Repr

/-- Values stored in a context mapping (`dict[str, Any]`): a scalar (modelled
as a string; other scalar types behave identically for the modelled code) or a
nested table. -/
inductive CtxValue where
  | str (s : String)
  | table (entries : List (String × CtxValue))
  deriving Repr

/-- A Python `dict[str, α]` as an association list with unique keys. -/
abbrev Dict (α : Type) := List (String × α)

/-- `d.get(k)` / `d[k]` lookup: first entry with the given key. -/
def dictLookup {α : Type} : Dict α → String → Option α
  | [], _ => none
  | (k2, v) :: rest, k => if k2 = k then some v else dictLookup rest k

/-- `d[k] = v`: replace the value at an existing key in place, else append. -/
def dictSet {α : Type} : Dict α → String → α → Dict α
  | [], k, v => [(k, v)]
  | (k2, v2) :: rest, k, v =>
      if k2 = k then (k, v) :: rest else (k2, v2) :: dictSet rest k v

/-- `d.update(other)`: assign each of `other`'s entries into `d`, in order. -/
def dictUpdate {α : Type} (d other : Dict α) : Dict α :=
  other.foldl (fun acc kv => dictSet acc kv.1 kv.2) d

/-- `EnvironmentOptions` (`name` required by the type, but the code reads all
three fields defensively). -/
structure EnvironmentOptions where
  name : Option String
  account : Option String
  region : Option String
  deriving DecidableEq, Repr

/-- `StackInfoOptions` (`id` required by the type; read with `.get` in
`set_stack_names` and with `[...]` in `init_ias_model`). -/
structure StackInfoOptions where
  id : Option String
  name : Option String
  depends_on : Option (List String)
  deriving DecidableEq, Repr

/-- `IasModelOptions`. -/
structure IasModelOptions where
  deployment_name : Option String
  «stacks» : Option (List StackInfoOptions)
  environment : Option EnvironmentOptions
  context : Option (Dict CtxValue)
  tags : Option (Dict String)
  deriving Repr

/-- The process environment variables the code consumes. -/
structure SysEnv where
  cdkDefaultAccount : Option String
  cdkDefaultRegion : Option String
  deriving DecidableEq, Repr

/-- The file system seen through `open(path, "rb")` + `toml.load`: `none` is
FileNotFoundError, `some (.error e)` a TOML parse error, `some (.ok tbl)` the
parsed top-level table. -/
abbrev FileSystem := String → Option (Except PyErr (Dict CtxValue))

/-- Result of calling one option processor: the returned record and the value
of the caller's argument after the call. -/
structure ProcCall where
  ret : IasModelOptions
  argAfter : IasModelOptions
  deriving Repr

/-- `cdk.Environment(account=..., region=...)`. -/
structure CdkEnvironment where
  account : Option String
  region : Option String
  deriving DecidableEq, Repr

/-- `cdk.App(context=...)` — only the seeded context is relevant here. -/
structure CdkApp where
  context : Option (Dict CtxValue)
  deriving Repr

/-- `cdk.Stack(app, id, stack_name=..., env=...)` with its applied tags. -/
structure CdkStack where
  id : String
  stack_name : String
  env : CdkEnvironment
  tags : Dict String
  deriving DecidableEq, Repr

/-- `IasModel`. -/
structure IasModel where
  deployment_name : String
  app : CdkApp
  «stacks» : Dict CdkStack
  current_environment : String × CdkEnvironment
  deriving Repr

/-- `_create_environment`: builds the CDK environment from `.get("account")` /
`.get("region")`, then reads `opts["name"]` (KeyError if absent). -/
def _create_environment (opts : EnvironmentOptions) :
    Except PyErr (String × CdkEnvironment) :=
  match opts.name with
  | none => .error .keyError
  | some n => .ok (n, { account := opts.account, region := opts.region })

/-- `_make_stack_name`. -/
def _make_stack_name (pfx sid env_name : String) : String :=
  if sid = "default" ∧ pfx ≠ "" then pfx
  else if pfx = "" then sid
  else if env_name = "" then pfx ++ "-" ++ sid
  else pfx ++ "-" ++ sid ++ "-" ++ env_name

/-- `set_env_account_region_from_env_vars`. `new_options = deepcopy(options)`
makes an independent value; the three `if` statements mutate (a dict reachable
only from) that copy, so the argument is unchanged after the call. -/
def set_env_account_region_from_env_vars (sys : SysEnv)
    (options : IasModelOptions) : ProcCall :=
  let env0 := options.environment.getD ⟨none, none, none⟩
  let env1 := if env0.account.isNone
    then { env0 with account := sys.cdkDefaultAccount } else env0
  let env2 := if env1.region.isNone
    then { env1 with region := sys.cdkDefaultRegion } else env1
  let env3 := if env2.name.isNone then { env2 with name := some "" } else env2
  { ret := { options with environment := some env3 }, argAfter := options }

/-- `set_default_stack_if_no_stacks`. Again `deepcopy` first, so the argument
is unchanged after the call. -/
def set_default_stack_if_no_stacks (options : IasModelOptions) : ProcCall :=
  let «stacks» := options.stacks.getD []
  if «stacks».length = 0 then
    let stack_info : StackInfoOptions :=
      { id := some "default"
        name := some (options.deployment_name.getD "")
        depends_on := some [] }
    { ret := { options with «stacks» := some («stacks» ++ [stack_info]) }
      argAfter := options }
  else
    { ret := options, argAfter := options }

/-- The body of the `for stack_info in stacks` loop of `set_stack_names`. -/
def setStackNameStep (deployment_name env_name : String)
    (stack_info : StackInfoOptions) : StackInfoOptions :=
  let stack_id := stack_info.id.getD "default"
  if stack_info.name.isNone then
    { stack_info with
        name := some (_make_stack_name deployment_name stack_id env_name) }
  else stack_info

/-- `set_stack_names`. `deepcopy` first; the loop mutates the copied stack
dicts in place, which value-wise is a map over the list. -/
def set_stack_names (options : IasModelOptions) : ProcCall :=
  let deployment_name := options.deployment_name.getD ""
  let env_name := (options.environment.getD ⟨none, none, none⟩).name.getD ""
  let «stacks» := (options.stacks.getD []).map
    (setStackNameStep deployment_name env_name)
  { ret := { options with «stacks» := some «stacks» }, argAfter := options }

/-- The `for config_path in config_paths` loop of `load_toml_config_files`:
a missing file (FileNotFoundError) is skipped, a parse error propagates, a
parsed table is merged with `dict.update`. -/
def loadTomlLoop (fs : FileSystem) (acc : Dict CtxValue) :
    List String → Except PyErr (Dict CtxValue)
  | [] => .ok acc
  | p :: rest =>
      match fs p with
      | none => loadTomlLoop fs acc rest
      | some (.error e) => .error e
      | some (.ok tbl) => loadTomlLoop fs (dictUpdate acc tbl) rest

/-- `load_toml_config_files`. `config_result = options.get("context", {})`
aliases the argument's context dict whenever that key is present, and
`config_result.update(...)` runs on that alias *before*
`new_options = copy.deepcopy(options)`; so when the input has a context
mapping, the call mutates it in place, and the deepcopy then snapshots the
already-mutated argument. `new_options["context"] = config_result` makes the
returned record's context equal to the merged dict in either case. -/
def load_toml_config_files (fs : FileSystem) (options : IasModelOptions) :
    Except PyErr ProcCall :=
  let deployment_name := options.deployment_name.getD ""
  let env_name := (options.environment.getD ⟨none, none, none⟩).name.getD ""
  let config_paths :=
    (if env_name ≠ "" then [env_name ++ ".toml"] else [])
    ++ (if deployment_name ≠ "" then [deployment_name ++ ".toml"] else [])
    ++ (if deployment_name ≠ "" ∧ env_name ≠ ""
        then [deployment_name ++ "-" ++ env_name ++ ".toml"] else [])
  match loadTomlLoop fs (options.context.getD []) config_paths with
  | .error e => .error e
  | .ok config_result =>
      let argAfter := if options.context.isSome
        then { options with context := some config_result } else options
      .ok { ret := { argAfter with context := some config_result }
            argAfter := argAfter }

/-- `simple_defaults`: the three processors chained on the returned records. -/
def simple_defaults (sys : SysEnv) (options : IasModelOptions) :
    IasModelOptions :=
  let o1 := (set_env_account_region_from_env_vars sys options).ret
  let o2 := (set_default_stack_if_no_stacks o1).ret
  (set_stack_names o2).ret

/-- `simple_config_defaults`: `simple_defaults` then TOML config loading. -/
def simple_config_defaults (sys : SysEnv) (fs : FileSystem)
    (options : IasModelOptions) : Except PyErr IasModelOptions :=
  match load_toml_config_files fs (simple_defaults sys options) with
  | .error e => .error e
  | .ok r => .ok r.ret

/-- The `for processor in option_processors: options = processor(options)`
loop of `init_ias_model`; a processor may raise (e.g. a TOML parse error). -/
def runProcessors
    (procs : List (IasModelOptions → Except PyErr IasModelOptions))
    (options : IasModelOptions) : Except PyErr IasModelOptions :=
  match procs with
  | [] => .ok options
  | p :: rest =>
      match p options with
      | .error e => .error e
      | .ok o => runProcessors rest o

/-- The `for stack_info in options.get("stacks", [])` loop of
`init_ias_model`: reads `stack_info["id"]` (KeyError if absent), falls back
to the id for a missing name, creates the stack with the shared environment,
applies the tags, and records it keyed by id (`stacks[stack_id] = stack`). -/
def buildStacks (env : CdkEnvironment) (tags : Dict String)
    (acc : Dict CdkStack) :
    List StackInfoOptions → Except PyErr (Dict CdkStack)
  | [] => .ok acc
  | stack_info :: rest =>
      match stack_info.id with
      | none => .error .keyError
      | some stack_id =>
          let stack_name := stack_info.name.getD stack_id
          let stack : CdkStack :=
            { id := stack_id, stack_name := stack_name, env := env
              tags := tags }
          buildStacks env tags (dictSet acc stack_id stack) rest

/-- `init_ias_model`: run the processors, then read
`options["deployment_name"]` (KeyError if still absent), resolve the
environment (defaulting to `{"name": ""}` when absent), create the app with
the options' context, and build the stack mapping. -/
def init_ias_model (opts : IasModelOptions)
    (procs : List (IasModelOptions → Except PyErr IasModelOptions)) :
    Except PyErr IasModel :=
  match runProcessors procs opts with
  | .error e => .error e
  | .ok options =>
      match options.deployment_name with
      | none => .error .keyError
      | some deployment_name =>
          let env := options.environment.getD
            { name := some "", account := none, region := none }
          match _create_environment env with
          | .error e => .error e
          | .ok current_env =>
              let app : CdkApp := { context := options.context }
              match buildStacks current_env.2 (options.tags.getD []) []
                  (options.stacks.getD []) with
              | .error e => .error e
              | .ok «stacks» =>
                  .ok { deployment_name := deployment_name, app := app
                        «stacks» := «stacks», current_environment := current_env }

/-- The key argument of `get_context_data`: a single string or a list. -/
inductive ContextKey where
  | str (s : String)
  | path (keys : List String)

/-- The `for k in key[1:]` loop of `get_context_data`: break (returning
`None`) once the running value is `None`; `context.get(k)` on a scalar raises
AttributeError, on a table it is a dict lookup. -/
def ctxGetLoop : Option CtxValue → List String → Except PyErr (Option CtxValue)
  | ctx, [] => .ok ctx
  | none, _ :: _ => .ok none
  | some (.str _), _ :: _ => .error .attributeError
  | some (.table t), k :: rest => ctxGetLoop (dictLookup t k) rest

/-- `get_context_data`. The scope is modelled by the context mapping its node
resolves (`try_get_context` returns the value or `None`). A list key reads
`key[0]` unconditionally (IndexError on an empty list). -/
def get_context_data (ctx : Dict CtxValue) :
    ContextKey → Except PyErr (Option CtxValue)
  | .str k => .ok (dictLookup ctx k)
  | .path keys =>
      match keys with
      | [] => .error .indexError
      | k :: rest => ctxGetLoop (dictLookup ctx k) rest

/-!
Specification-side definitions, written from the spec's words, to be compared
with the embedded code above.
-/

/-- Spec-side: does a key path miss, i.e. is some key in the path absent at
its level (all earlier keys having resolved to nested tables)? Stated on the
running value after the first lookup. -/
def missesAux : Option CtxValue → List String → Bool
  | none, _ => true
  | some _, [] => false
  | some (.str _), _ :: _ => false
  | some (.table t), k :: rest => missesAux (dictLookup t k) rest

/-- Spec-side: some key of the path is absent at its level. -/
def pathMisses (ctx : Dict CtxValue) : List String → Bool
  | [] => false
  | k :: rest => missesAux (dictLookup ctx k) rest

/-- Spec-side: the exact nested value a key path reaches, if every key is
present and every intermediate value is a table. Stated on the running value
after the first lookup. -/
def foundAux : Option CtxValue → List String → Option CtxValue
  | o, [] => o
  | none, _ :: _ => none
  | some (.str _), _ :: _ => none
  | some (.table t), k :: rest => foundAux (dictLookup t k) rest

/-- Spec-side: the exact nested value reached by a key path. -/
def nestedLookup (ctx : Dict CtxValue) : List String → Option CtxValue
  | [] => none
  | k :: rest => foundAux (dictLookup ctx k) rest

/-- The example context mapping used by the spec's context-accessor examples:
`{"config1": "value1", "config2": {"subconfig1": "subvalue1"}}`. -/
def exampleContext : Dict CtxValue :=
  [("config1", .str "value1"),
   ("config2", .table [("subconfig1", .str "subvalue1")])]

/-- A missing path makes the traversal loop return `None`. -/
theorem ctxGetLoop_of_missesAux (rest : List String) :
    ∀ o : Option CtxValue, missesAux o rest = true →
      ctxGetLoop o rest = .ok none := by
  induction rest with
  | nil =>
      intro o h
      cases o with
      | none => rfl
      | some v => simp [missesAux] at h
  | cons k r ih =>
      intro o h
      cases o with
      | none => rfl
      | some v =>
          cases v with
          | str s => simp [missesAux] at h
          | table t =>
              have h2 : missesAux (dictLookup t k) r = true := by
                simpa [missesAux] using h
              exact ih (dictLookup t k) h2

/-- A fully present path makes the traversal loop return its nested value. -/
theorem ctxGetLoop_of_foundAux (rest : List String) :
    ∀ (o : Option CtxValue) (v : CtxValue), foundAux o rest = some v →
      ctxGetLoop o rest = .ok (some v) := by
  induction rest with
  | nil =>
      intro o v h
      simp only [foundAux] at h
      simp [ctxGetLoop, h]
  | cons k r ih =>
      intro o v h
      cases o with
      | none => simp [foundAux] at h
      | some w =>
          cases w with
          | str s => simp [foundAux] at h
          | table t =>
              have h2 : foundAux (dictLookup t k) r = some v := by
                simpa [foundAux] using h
              exact ih (dictLookup t k) v h2

/-- C4: for every context mapping and key path (a single key or a sequence of
keys), `get_context_data` returns `None` whenever some key of the path is
absent at its level (short-circuiting at the first missing key), and returns
the exact nested value otherwise; in particular the spec's two examples hold
on `{"config1": "value1", "config2": {"subconfig1": "subvalue1"}}`. -/
theorem get_context_data_spec (ctx : Dict CtxValue) (keys : List String)
    (k : String) :
    (pathMisses ctx keys = true →
      get_context_data ctx (.path keys) = .ok none)
    ∧ (∀ v, nestedLookup ctx keys = some v →
        get_context_data ctx (.path keys) = .ok (some v))
    ∧ (dictLookup ctx k = none → get_context_data ctx (.str k) = .ok none)
    ∧ (∀ v, dictLookup ctx k = some v →
        get_context_data ctx (.str k) = .ok (some v))
    ∧ get_context_data exampleContext (.path ["config2", "subconfig1"])
        = .ok (some (.str "subvalue1"))
    ∧ get_context_data exampleContext (.str "config3") = .ok none := by
  refine ⟨?_, ?_, ?_, ?_, ?_, ?_⟩
  · intro h
    cases keys with
    | nil => simp [pathMisses] at h
    | cons k0 rest =>
        have h2 : missesAux (dictLookup ctx k0) rest = true := by
          simpa [pathMisses] using h
        simpa [get_context_data] using
          ctxGetLoop_of_missesAux rest (dictLookup ctx k0) h2
  · intro v h
    cases keys with
    | nil => simp [nestedLookup] at h
    | cons k0 rest =>
        have h2 : foundAux (dictLookup ctx k0) rest = some v := by
          simpa [nestedLookup] using h
        simpa [get_context_data] using
          ctxGetLoop_of_foundAux rest (dictLookup ctx k0) v h2
  · intro h
    simp [get_context_data, h]
  · intro v h
    simp [get_context_data, h]
  · rfl
  · rfl

/-- Closed witness for C4: the hypotheses of `get_context_data_spec` hold and
are discharged at the spec's concrete example inputs. -/
theorem get_context_data_spec_witness :
    get_context_data exampleContext (.path ["config3", "x"]) = .ok none
    ∧ get_context_data exampleContext (.path ["config2", "subconfig1"])
        = .ok (some (.str "subvalue1"))
    ∧ get_context_data exampleContext (.str "config3") = .ok none
    ∧ get_context_data exampleContext (.str "config1")
        = .ok (some (.str "value1")) :=
  ⟨(get_context_data_spec exampleContext ["config3", "x"] "config3").1
      (by decide),
   (get_context_data_spec exampleContext ["config2", "subconfig1"]
      "config3").2.1 (.str "subvalue1") (by rfl),
   (get_context_data_spec exampleContext ["config2"] "config3").2.2.1
      (by rfl),
   (get_context_data_spec exampleContext ["config2"] "config1").2.2.2.1
      (.str "value1") (by rfl)⟩

/-- C10: called with an empty key list, `get_context_data` reads `key[0]`
unconditionally, so the empty list reaches the IndexError branch rather than
returning `None`. -/
theorem get_context_data_empty_path (ctx : Dict CtxValue) :
    get_context_data ctx (.path []) = .error .indexError := rfl

/-- C3: `_make_stack_name` obeys the spec's four-branch rule — prefix when the
id is `"default"` and the prefix is non-empty; else the id when the prefix is
empty; else `prefix-id` when the environment name is empty; else
`prefix-id-env` — and the spec's four concrete examples hold. -/
theorem make_stack_name_spec (pfx sid env_name : String) :
    _make_stack_name pfx sid env_name =
      (if sid = "default" ∧ pfx ≠ "" then pfx
       else if pfx = "" then sid
       else if env_name = "" then pfx ++ "-" ++ sid
       else pfx ++ "-" ++ sid ++ "-" ++ env_name)
    ∧ _make_stack_name "" "stackid" "" = "stackid"
    ∧ _make_stack_name "test" "default" "" = "test"
    ∧ _make_stack_name "test" "test2" "" = "test-test2"
    ∧ _make_stack_name "test" "test2" "test3" = "test-test2-test3" := by
  refine ⟨rfl, ?_, ?_, ?_, ?_⟩ <;> decide

/-- C6: the environment-defaulting processor fills the account from
`CDK_DEFAULT_ACCOUNT`, the region from `CDK_DEFAULT_REGION`, and the name with
`""` exactly when the respective field is absent in the options' environment,
and never overwrites a pre-existing explicit value, even when the
corresponding process environment variable is set. -/
theorem set_env_defaults_spec (sys : SysEnv) (options : IasModelOptions)
    (env0 : EnvironmentOptions)
    (henv : options.environment.getD ⟨none, none, none⟩ = env0) :
    ∃ env3 : EnvironmentOptions,
      (set_env_account_region_from_env_vars sys options).ret
          = { options with environment := some env3 }
      ∧ (env0.account = none → env3.account = sys.cdkDefaultAccount)
      ∧ (∀ a, env0.account = some a → env3.account = some a)
      ∧ (env0.region = none → env3.region = sys.cdkDefaultRegion)
      ∧ (∀ r, env0.region = some r → env3.region = some r)
      ∧ (env0.name = none → env3.name = some "")
      ∧ (∀ n, env0.name = some n → env3.name = some n) := by
  obtain ⟨na, ac, re⟩ := env0
  unfold set_env_account_region_from_env_vars
  rw [henv]
  cases ac <;> cases re <;> cases na <;>
    exact ⟨_, rfl, by simp, by simp, by simp, by simp, by simp, by simp⟩

/-- Example options for the C6 witness: explicit account, no region, no
environment name, with both process environment variables set. -/
def envWitnessOptions : IasModelOptions :=
  { deployment_name := some "test"
    «stacks» := none
    environment := some ⟨none, some "234567890123", none⟩
    context := none
    tags := none }

/-- Example process environment for the C6 witness. -/
def envWitnessSys : SysEnv :=
  ⟨some "123456789012", some "eu-north-0"⟩

/-- Closed witness for C6 at a concrete input: the explicit account survives
although `CDK_DEFAULT_ACCOUNT` is set, the absent region is filled from
`CDK_DEFAULT_REGION`, and the absent name becomes `""`. -/
theorem set_env_defaults_spec_witness :
    ∃ env3 : EnvironmentOptions,
      (set_env_account_region_from_env_vars envWitnessSys
          envWitnessOptions).ret
        = { envWitnessOptions with environment := some env3 }
      ∧ env3.account = some "234567890123"
      ∧ env3.region = some "eu-north-0"
      ∧ env3.name = some "" := by
  obtain ⟨env3, hret, _, hacc, hreg, _, hname, _⟩ :=
    set_env_defaults_spec envWitnessSys envWitnessOptions
      ⟨none, some "234567890123", none⟩ rfl
  exact ⟨env3, hret, hacc "234567890123" rfl, hreg rfl, hname rfl⟩

/-- C7: with an empty (or absent) stacks list, the default-stack-injection
processor synthesizes exactly one descriptor with id `"default"`, name equal
to the deployment name, and no dependencies; with a non-empty stacks list the
options record is returned unchanged. -/
theorem set_default_stack_spec (options : IasModelOptions) (dn : String)
    (hdn : options.deployment_name = some dn) :
    (options.stacks.getD [] = [] →
      (set_default_stack_if_no_stacks options).ret
        = { options with
              «stacks» := some [⟨some "default", some dn, some []⟩] })
    ∧ (options.stacks.getD [] ≠ [] →
      (set_default_stack_if_no_stacks options).ret = options) := by
  constructor
  · intro h
    unfold set_default_stack_if_no_stacks
    simp [h, hdn]
  · intro h
    unfold set_default_stack_if_no_stacks
    simp [List.length_eq_zero, h]

/-- Example options for the C7 witness, with no stacks field. -/
def defaultStackWitnessEmpty : IasModelOptions :=
  { deployment_name := some "test"
    «stacks» := none
    environment := none
    context := none
    tags := none }

/-- Example options for the C7 witness, with a non-empty stacks list. -/
def defaultStackWitnessNonEmpty : IasModelOptions :=
  { deployment_name := some "test"
    «stacks» := some [⟨some "a", none, none⟩]
    environment := none
    context := none
    tags := none }

/-- Closed witness for C7 at concrete inputs: the default descriptor is
synthesized for an absent stacks list, and a non-empty stacks list is left
unchanged. -/
theorem set_default_stack_spec_witness :
    (set_default_stack_if_no_stacks defaultStackWitnessEmpty).ret
      = { defaultStackWitnessEmpty with
            «stacks» := some [⟨some "default", some "test", some []⟩] }
    ∧ (set_default_stack_if_no_stacks defaultStackWitnessNonEmpty).ret
      = defaultStackWitnessNonEmpty :=
  ⟨(set_default_stack_spec defaultStackWitnessEmpty "test" rfl).1 rfl,
   (set_default_stack_spec defaultStackWitnessNonEmpty "test" rfl).2
     (by decide)⟩

/-- C8: the stack-name-derivation processor leaves every stack descriptor
that already has an explicit name unchanged, at its position in the list. -/
theorem set_stack_names_keeps_explicit (options : IasModelOptions) (i : Nat)
    (s : StackInfoOptions) (hs : (options.stacks.getD [])[i]? = some s)
    (hn : s.name.isSome = true) :
    ((set_stack_names options).ret.stacks.getD [])[i]? = some s := by
  unfold set_stack_names
  simp only [Option.getD_some, List.getElem?_map, hs, Option.map_some]
  have hnone : s.name.isNone = false := by
    cases hname : s.name with
    | none => rw [hname] at hn; simp at hn
    | some n => simp
  simp [setStackNameStep, hnone]

/-- Example options for the C8 witness: one named and one unnamed stack. -/
def stackNamesWitnessOptions : IasModelOptions :=
  { deployment_name := some "test"
    «stacks» := some [⟨some "test1", some "test1name", none⟩,
                      ⟨some "test2", none, none⟩]
    environment := none
    context := none
    tags := none }

/-- Closed witness for C8 at a concrete input: the explicitly named stack
descriptor passes through the processor unchanged. -/
theorem set_stack_names_keeps_explicit_witness :
    ((set_stack_names stackNamesWitnessOptions).ret.stacks.getD [])[0]?
      = some ⟨some "test1", some "test1name", none⟩ :=
  set_stack_names_keeps_explicit stackNamesWitnessOptions 0
    ⟨some "test1", some "test1name", none⟩ rfl rfl

/-- Spec-side: the candidate configuration file names, in the spec's fixed
order — `{env_name}.toml` when the environment name is non-empty, then
`{deployment_name}.toml` when the deployment name is non-empty, then
`{deployment_name}-{env_name}.toml` when both are non-empty. -/
def specConfigPaths (deployment_name env_name : String) : List String :=
  (if env_name ≠ "" then [env_name ++ ".toml"] else [])
  ++ (if deployment_name ≠ "" then [deployment_name ++ ".toml"] else [])
  ++ (if deployment_name ≠ "" ∧ env_name ≠ ""
      then [deployment_name ++ "-" ++ env_name ++ ".toml"] else [])

/-- Spec-side: merge each existing candidate file's table over the context,
in order, later files overwriting earlier ones key-by-key (shallow, top
level); files that do not exist are skipped. -/
def specMergeConfigs (fs : FileSystem) (ctx : Dict CtxValue) :
    List String → Dict CtxValue
  | [] => ctx
  | p :: rest =>
      match fs p with
      | some (.ok tbl) => specMergeConfigs fs (dictUpdate ctx tbl) rest
      | _ => specMergeConfigs fs ctx rest

/-- A file-system entry that does not raise a parse error: either the file is
missing or it parses. -/
def fileOk : Option (Except PyErr (Dict CtxValue)) → Bool
  | some (.error _) => false
  | _ => true

/-- When no candidate file is malformed, the loading loop succeeds and
computes the spec-side merge. -/
theorem loadTomlLoop_eq_specMerge (fs : FileSystem) (paths : List String) :
    ∀ acc : Dict CtxValue, (∀ p ∈ paths, fileOk (fs p) = true) →
      loadTomlLoop fs acc paths = .ok (specMergeConfigs fs acc paths) := by
  induction paths with
  | nil => intro acc _; rfl
  | cons p rest ih =>
      intro acc h
      have hp : fileOk (fs p) = true := h p (List.mem_cons_self p rest)
      have hrest : ∀ q ∈ rest, fileOk (fs q) = true :=
        fun q hq => h q (List.mem_cons_of_mem p hq)
      cases hfp : fs p with
      | none =>
          simp only [loadTomlLoop, specMergeConfigs, hfp]
          exact ih acc hrest
      | some ex =>
          cases ex with
          | error e => rw [hfp] at hp; simp [fileOk] at hp
          | ok tbl =>
              simp only [loadTomlLoop, specMergeConfigs, hfp]
              exact ih (dictUpdate acc tbl) hrest

/-- `load_toml_config_files` written with its candidate list named; equal to
the source translation by definitional unfolding. -/
theorem load_toml_config_files_eq (fs : FileSystem)
    (options : IasModelOptions) :
    load_toml_config_files fs options =
      match loadTomlLoop fs (options.context.getD [])
          (specConfigPaths (options.deployment_name.getD "")
            ((options.environment.getD ⟨none, none, none⟩).name.getD "")) with
      | .error e => .error e
      | .ok config_result =>
          .ok { ret := { (if options.context.isSome
                  then { options with context := some config_result }
                  else options) with context := some config_result }
                argAfter := if options.context.isSome
                  then { options with context := some config_result }
                  else options } := rfl

/-- C5: when no candidate file is malformed, the config-file-loading
processor succeeds; the returned record's context is the input context merged
with the tables of the candidate files that exist, taken in the spec's fixed
order with later files overwriting earlier ones key-by-key; files that do not
exist are silently skipped; all other fields are returned unchanged. -/
theorem load_toml_config_files_spec (fs : FileSystem)
    (options : IasModelOptions) (dn en : String)
    (hdn : options.deployment_name.getD "" = dn)
    (hen : (options.environment.getD ⟨none, none, none⟩).name.getD "" = en)
    (hok : ∀ p ∈ specConfigPaths dn en, fileOk (fs p) = true) :
    ∃ r : ProcCall, load_toml_config_files fs options = .ok r
      ∧ r.ret.context = some (specMergeConfigs fs (options.context.getD [])
          (specConfigPaths dn en))
      ∧ r.ret.deployment_name = options.deployment_name
      ∧ r.ret.stacks = options.stacks
      ∧ r.ret.environment = options.environment
      ∧ r.ret.tags = options.tags := by
  subst hdn
  subst hen
  rw [load_toml_config_files_eq fs options,
    loadTomlLoop_eq_specMerge fs _ _ hok]
  cases hc : options.context <;>
    exact ⟨_, rfl, by simp [hc], by simp [hc], by simp [hc], by simp [hc],
      by simp [hc]⟩

/-- The file system for the C5 witness: the environment file and the
deployment file exist, the combined `dep-env1.toml` does not. -/
def tomlWitnessFs : FileSystem := fun p =>
  if p = "env1.toml"
    then some (.ok [("k", .str "fromEnvFile"), ("e", .str "envOnly")])
  else if p = "dep.toml"
    then some (.ok [("k", .str "fromDepFile"), ("d", .str "depOnly")])
  else none

/-- The options for the C5 witness: deployment `dep`, environment `env1`, and
a pre-existing context. -/
def tomlWitnessOptions : IasModelOptions :=
  { deployment_name := some "dep"
    «stacks» := none
    environment := some ⟨some "env1", none, none⟩
    context := some [("k", .str "orig"), ("c", .str "ctxOnly")]
    tags := none }

/-- Closed witness for C5 at a concrete input: the env file loads first, the
deployment file second and overwrites the shared key, the missing combined
file is skipped, and the stacks field is untouched. -/
theorem load_toml_config_files_spec_witness :
    ∃ r : ProcCall,
      load_toml_config_files tomlWitnessFs tomlWitnessOptions = .ok r
      ∧ r.ret.context = some [("k", .str "fromDepFile"), ("c", .str "ctxOnly"),
          ("e", .str "envOnly"), ("d", .str "depOnly")]
      ∧ r.ret.stacks = tomlWitnessOptions.stacks := by
  obtain ⟨r, hr, hctx, _, hst, _, _⟩ :=
    load_toml_config_files_spec tomlWitnessFs tomlWitnessOptions "dep" "env1"
      rfl rfl (by decide)
  exact ⟨r, hr, by rw [hctx]; rfl, hst⟩

/-- The file system for the C1 failing input: `env1.toml` exists and binds
`k = "new"`. -/
def mutateWitnessFs : FileSystem := fun p =>
  if p = "env1.toml" then some (.ok [("k", .str "new")]) else none

/-- The C1 failing input: an options record that already has a context
mapping `{"k": "old"}` and environment name `env1`. -/
def mutateWitnessOptions : IasModelOptions :=
  { deployment_name := some "dep"
    «stacks» := none
    environment := some ⟨some "env1", none, none⟩
    context := some [("k", .str "old")]
    tags := none }

/-- The value of the C1 argument after the call: its context entry `k` has
changed from `"old"` to `"new"`. -/
def mutatedOptions : IasModelOptions :=
  { mutateWitnessOptions with context := some [("k", .str "new")] }

/-- C1 fails on the code: `load_toml_config_files` merges the loaded file
into the dict aliased by `options["context"]` *before* taking its deep copy,
so the argument's context mapping is mutated in place by the call — here its
entry `k` changes from `"old"` to `"new"`, so the argument does not keep its
value. -/
theorem load_toml_config_files_mutates_argument :
    load_toml_config_files mutateWitnessFs mutateWitnessOptions
      = .ok ⟨mutatedOptions, mutatedOptions⟩
    ∧ mutatedOptions.context = some [("k", .str "new")]
    ∧ mutateWitnessOptions.context = some [("k", .str "old")]
    ∧ ¬ mutatedOptions = mutateWitnessOptions := by
  refine ⟨rfl, rfl, rfl, fun h => ?_⟩
  have hc := congrArg IasModelOptions.context h
  rw [show mutatedOptions.context = some [("k", CtxValue.str "new")] from rfl,
    show mutateWitnessOptions.context = some [("k", CtxValue.str "old")]
      from rfl] at hc
  simp only [Option.some.injEq, List.cons.injEq, Prod.mk.injEq,
    CtxValue.str.injEq, and_true] at hc
  exact absurd hc.2 (by decide)

/-- The C2 counterexample input: an options record with no deployment name at
all. -/
def missingNameOptions : IasModelOptions :=
  { deployment_name := none
    «stacks» := none
    environment := none
    context := none
    tags := none }

/-- An option processor that supplies the missing deployment name. -/
def supplyNameProcessor : IasModelOptions → Except PyErr IasModelOptions :=
  fun o => .ok { o with deployment_name := some "fixed" }

/-- C2 fails as stated: with the deployment name absent from the options
passed to `init_ias_model`, no error is raised before the option processors
run — the processors run first, and a processor that supplies the name makes
the whole call succeed. -/
theorem init_ias_model_no_immediate_missing_name_error :
    init_ias_model missingNameOptions [supplyNameProcessor]
      = .ok { deployment_name := "fixed", app := ⟨none⟩, «stacks» := []
              current_environment := ("", ⟨none, none⟩) } := rfl

/-- C2 (amended): if the deployment name is still absent after all option
processors have run, `init_ias_model` raises a KeyError when it reads
`options["deployment_name"]`, before any model construction. -/
theorem init_ias_model_missing_name_after_processing
    (opts o : IasModelOptions)
    (procs : List (IasModelOptions → Except PyErr IasModelOptions))
    (hrun : runProcessors procs opts = .ok o)
    (hdn : o.deployment_name = none) :
    init_ias_model opts procs = .error .keyError := by
  simp [init_ias_model, hrun, hdn]

/-- Closed witness for the amended C2: with an empty processor list the
deployment name stays absent and the call raises a KeyError. -/
theorem init_ias_model_missing_name_after_processing_witness :
    runProcessors [] missingNameOptions = .ok missingNameOptions
    ∧ missingNameOptions.deployment_name = none
    ∧ init_ias_model missingNameOptions [] = .error .keyError :=
  ⟨rfl, rfl,
   init_ias_model_missing_name_after_processing missingNameOptions
     missingNameOptions [] rfl rfl⟩

/-- Looking up the key just assigned yields the assigned value. -/
theorem dictLookup_dictSet_self {α : Type} (d : Dict α) (k : String)
    (v : α) : dictLookup (dictSet d k v) k = some v := by
  induction d with
  | nil => simp [dictSet, dictLookup]
  | cons kv rest ih =>
      obtain ⟨k2, v2⟩ := kv
      by_cases h : k2 = k
      · simp [dictSet, dictLookup, h]
      · simp [dictSet, dictLookup, h, ih]

/-- Assigning one key does not change lookups at another key. -/
theorem dictLookup_dictSet_ne {α : Type} (d : Dict α) (k k2 : String)
    (v : α) (h : k2 ≠ k) : dictLookup (dictSet d k v) k2 = dictLookup d k2 := by
  have hkk : ¬ k = k2 := fun he => h he.symm
  induction d with
  | nil => simp [dictSet, dictLookup, hkk]
  | cons kv rest ih =>
      obtain ⟨k3, v3⟩ := kv
      by_cases h3 : k3 = k
      · subst h3
        simp [dictSet, dictLookup, hkk]
      · simp [dictSet, dictLookup, h3, ih]

/-- The stack-building loop leaves lookups at an id that no remaining
descriptor carries unchanged. -/
theorem buildStacks_lookup_of_notmem (env : CdkEnvironment)
    (tags : Dict String) (sid : String) (list : List StackInfoOptions) :
    ∀ (acc res : Dict CdkStack), buildStacks env tags acc list = .ok res →
      (∀ t ∈ list, t.id ≠ some sid) →
      dictLookup res sid = dictLookup acc sid := by
  induction list with
  | nil =>
      intro acc res h _
      simp only [buildStacks, Except.ok.injEq] at h
      rw [h]
  | cons t rest ih =>
      intro acc res h hmem
      cases hid : t.id with
      | none => rw [buildStacks, hid] at h; cases h
      | some tid =>
          rw [buildStacks, hid] at h
          have htid : tid ≠ sid := fun he =>
            hmem t (List.mem_cons_self t rest) (by rw [hid, he])
          rw [ih _ _ h (fun q hq => hmem q (List.mem_cons_of_mem t hq))]
          exact dictLookup_dictSet_ne acc tid sid _ (fun he => htid he.symm)

/-- If the stack-building loop succeeds and the descriptors' ids are
pairwise distinct, the stack recorded for a descriptor's id is the one built
from that descriptor: name falling back to the id when absent, the shared
environment, and the options' tags. -/
theorem buildStacks_lookup_of_mem (env : CdkEnvironment)
    (tags : Dict String) (sid : String) (s : StackInfoOptions)
    (list : List StackInfoOptions) :
    ∀ (acc res : Dict CdkStack), buildStacks env tags acc list = .ok res →
      s ∈ list → s.id = some sid →
      (list.map (fun t => t.id)).Nodup →
      dictLookup res sid = some
        { id := sid, stack_name := s.name.getD sid, env := env
          tags := tags } := by
  induction list with
  | nil => intro acc res _ hmem; simp at hmem
  | cons t rest ih =>
      intro acc res h hmem hid hnodup
      rcases List.mem_cons.mp hmem with he | hm
      · subst he
        simp only [buildStacks, hid] at h
        have hnd : (∀ x ∈ rest, ¬ x.id = s.id)
            ∧ (rest.map (fun t => t.id)).Nodup := by
          simpa using hnodup
        have hrest : ∀ q ∈ rest, q.id ≠ some sid := by
          intro q hq he
          exact hnd.1 q hq (he.trans hid.symm)
        rw [buildStacks_lookup_of_notmem env tags sid rest _ _ h hrest]
        exact dictLookup_dictSet_self acc sid _
      · cases hid2 : t.id with
        | none =>
            simp only [buildStacks, hid2] at h
            exact Except.noConfusion h
        | some tid =>
            simp only [buildStacks, hid2] at h
            have hnd : (∀ x ∈ rest, ¬ x.id = t.id)
                ∧ (rest.map (fun t => t.id)).Nodup := by
              simpa using hnodup
            exact ih _ _ h hm hid hnd.2

/-- C9: in `init_ias_model` with an empty processor list, a stack descriptor
that still lacks a name produces a stack whose resolved name equals its id —
the name falls back to the stack id, not to the deployment-name-based
derivation rule. (Ids are assumed pairwise distinct, as the data-model
invariant requires.) -/
theorem init_ias_model_name_falls_back_to_id (opts : IasModelOptions)
    (m : IasModel) (s : StackInfoOptions) (sid : String)
    (hm : init_ias_model opts [] = .ok m)
    (hs : s ∈ opts.stacks.getD []) (hid : s.id = some sid)
    (hname : s.name = none)
    (hnodup : ((opts.stacks.getD []).map (fun t => t.id)).Nodup) :
    ∃ st : CdkStack, dictLookup m.stacks sid = some st
      ∧ st.stack_name = sid := by
  rw [show init_ias_model opts [] =
      (match opts.deployment_name with
       | none => .error .keyError
       | some deployment_name =>
          match _create_environment
              (opts.environment.getD ⟨some "", none, none⟩) with
          | .error e => .error e
          | .ok current_env =>
              match buildStacks current_env.2 (opts.tags.getD []) []
                  (opts.stacks.getD []) with
              | .error e => .error e
              | .ok stks =>
                  .ok { deployment_name := deployment_name
                        app := ⟨opts.context⟩, «stacks» := stks
                        current_environment := current_env }
        : Except PyErr IasModel) from rfl] at hm
  cases hdn : opts.deployment_name with
  | none => simp [hdn] at hm
  | some dn =>
      cases hce : _create_environment
          (opts.environment.getD ⟨some "", none, none⟩) with
      | error e => simp [hdn, hce] at hm
      | ok ce =>
          cases hbs : buildStacks ce.2 (opts.tags.getD []) []
              (opts.stacks.getD []) with
          | error e => simp [hdn, hce, hbs] at hm
          | ok stks =>
              simp only [hdn, hce, hbs, Except.ok.injEq] at hm
              subst hm
              have hl := buildStacks_lookup_of_mem ce.2 (opts.tags.getD [])
                sid s (opts.stacks.getD []) [] stks hbs hs hid hnodup
              refine ⟨_, hl, ?_⟩
              simp [hname]

/-- The options for the C9 witness: one stack descriptor with an id and no
name, fed through `init_ias_model` with an empty processor list. -/
def modelWitnessOptions : IasModelOptions :=
  { deployment_name := some "dep"
    «stacks» := some [⟨some "s1", none, none⟩]
    environment := none
    context := none
    tags := none }

/-- The model `init_ias_model` builds for `modelWitnessOptions` with no
processors. -/
def modelWitnessModel : IasModel :=
  { deployment_name := "dep"
    app := ⟨none⟩
    «stacks» := [("s1", ⟨"s1", "s1", ⟨none, none⟩, []⟩)]
    current_environment := ("", ⟨none, none⟩) }

/-- Closed witness for C9 at a concrete input: the unnamed descriptor `s1`
yields a stack named `"s1"`, not `"dep-s1"`. -/
theorem init_ias_model_name_falls_back_to_id_witness :
    ∃ st : CdkStack, dictLookup modelWitnessModel.stacks "s1" = some st
      ∧ st.stack_name = "s1" :=
  init_ias_model_name_falls_back_to_id modelWitnessOptions modelWitnessModel
    ⟨some "s1", none, none⟩ "s1" rfl (by decide) rfl rfl (by decide)

end SimpleCdk
